import Mathlib

/-!
Shallow embedding of the `anchor_auction` Solana program
(`programs/wba_auction_house/src/lib.rs`).

The program is a single-item ascending-price auction escrow with four
instructions: `exhibit`, `bid`, `cancel`, `close`.  Each instruction is
guarded by Anchor account constraints (modelled as a boolean `...Checks`
function evaluated before the handler body runs) and then performs a
sequence of SPL-token CPIs (`transfer`, `set_authority`, `close_account`,
modelled on a ledger mapping account pubkeys to token-account state).
A failing instruction aborts the whole transaction, so the transaction
level `step` commits the new state only on success.
-/

namespace AnchorAuction

/-- Identities and account addresses (Solana `Pubkey`), modelled as naturals. -/
abbrev Pubkey := Nat

/-- The program derived address (PDA) for seed `b"escrow"`: the program's
control identity that is made the owner of escrow custody accounts. -/
def pda : Pubkey := 0

/-- An SPL token account: its mint, its current owner (authority) and its
balance. -/
structure TokenAccount where
  mint : Pubkey
  owner : Pubkey
  amount : Nat
  deriving DecidableEq, Repr

/-- The token ledger: an association list from account address to token
account state. -/
abbrev Ledger := List (Pubkey × TokenAccount)

/-- Look an account up in the ledger. -/
def lookupAcct : Ledger → Pubkey → Option TokenAccount
  | [], _ => none
  | (k, a) :: rest, q => if q = k then some a else lookupAcct rest q

/-- Overwrite an existing account's state (no-op if the address is absent). -/
def setAcct : Ledger → Pubkey → TokenAccount → Ledger
  | [], _, _ => []
  | (k, a) :: rest, q, v => if q = k then (k, v) :: rest else (k, a) :: setAcct rest q v

/-- Remove an account from the ledger (used by `close_account`). -/
def eraseAcct : Ledger → Pubkey → Ledger
  | [], _ => []
  | (k, a) :: rest, q => if q = k then rest else (k, a) :: eraseAcct rest q

/-- Discrete failure reasons: Anchor constraint violations plus the SPL
token program's own errors. -/
inductive Err where
  | constraint
  | accountNotFound
  | insufficientFunds
  | ownerMismatch
  | mintMismatch
  | amountOverflow
  | nonEmptyClose
  deriving DecidableEq, Repr

/-- Modulus of `u64` balances. -/
def U64MOD : Nat := 2 ^ 64

/-- SPL token `transfer`: checks balance, mint compatibility and that the
authorizing identity owns the source account; a self-transfer is a no-op;
the receiving balance must not overflow `u64`. -/
def transfer (l : Ledger) (source dest : Pubkey) (amount : Nat) (authorizing : Pubkey) :
    Except Err Ledger :=
  match lookupAcct l source, lookupAcct l dest with
  | some s, some d =>
    if s.amount < amount then .error .insufficientFunds
    else if s.mint ≠ d.mint then .error .mintMismatch
    else if s.owner ≠ authorizing then .error .ownerMismatch
    else if source = dest then .ok l
    else if d.amount + amount < U64MOD then
      .ok (setAcct (setAcct l source { s with amount := s.amount - amount }) dest
             { d with amount := d.amount + amount })
    else .error .amountOverflow
  | _, _ => .error .accountNotFound

/-- SPL token `set_authority` (`AuthorityType::AccountOwner`): reassigns the
owner of an account, requiring the current owner to authorize. -/
def setAuthority (l : Ledger) (acct currentOwner newOwner : Pubkey) : Except Err Ledger :=
  match lookupAcct l acct with
  | some a =>
    if a.owner ≠ currentOwner then .error .ownerMismatch
    else .ok (setAcct l acct { a with owner := newOwner })
  | none => .error .accountNotFound

/-- SPL token `close_account`: releases an empty account's storage; requires
the authorizing identity to own the account and the balance to be zero. -/
def closeAccount (l : Ledger) (acct _destination authorizing : Pubkey) : Except Err Ledger :=
  match lookupAcct l acct with
  | some a =>
    if a.owner ≠ authorizing then .error .ownerMismatch
    else if a.amount ≠ 0 then .error .nonEmptyClose
    else .ok (eraseAcct l acct)
  | none => .error .accountNotFound

/-- The persistent `Auction` record, field for field as in the Rust
`#[account] pub struct Auction`. -/
structure Auction where
  exhibitor_pubkey : Pubkey
  exhibitor_ft_receiving_pubkey : Pubkey
  exhibiting_nft_temp_pubkey : Pubkey
  highest_bidder_pubkey : Pubkey
  highest_bidder_ft_temp_pubkey : Pubkey
  highest_bidder_ft_returning_pubkey : Pubkey
  price : Nat
  end_at : Int
  deriving DecidableEq, Repr

/-- Modulus of `i64` arithmetic, as an integer. -/
def I64MOD : Int := 2 ^ 64

/-- Reduce an integer into the `i64` range by two's-complement wrapping. -/
def wrapI64 (n : Int) : Int := (n + 2 ^ 63) % I64MOD - 2 ^ 63

/-- Rust `u64 as i64`: two's-complement reinterpretation of a `u64` value. -/
def u64AsI64 (n : Nat) : Int := if n < 2 ^ 63 then (n : Int) else (n : Int) - I64MOD

/-- Global state touched by the program: the one auction-record slot plus the
token ledger. -/
structure Chain where
  escrow : Option Auction
  ledger : Ledger
  deriving DecidableEq, Repr

/-- Anchor account constraints of `Exhibit`: the escrow slot is zeroed
(`#[account(zero)]`), the referenced token accounts deserialize, and
`exhibitor_nft_token_account.amount == 1`. -/
def exhibitChecks (c : Chain) (nftTokenAcct nftTempAcct ftRecvAcct : Pubkey) : Bool :=
  c.escrow.isNone
    && (lookupAcct c.ledger nftTempAcct).isSome
    && (lookupAcct c.ledger ftRecvAcct).isSome
    && (match lookupAcct c.ledger nftTokenAcct with
        | some a => a.amount == 1
        | none => false)

/-- The `exhibit` instruction (lib.rs lines 23-62): populate the record
(the field assignments of lines 29-43, visible outside the transaction
only on commit), delegate the NFT temp account to the PDA, move the one
NFT unit into it. -/
def exhibit (c : Chain) (exhibitor nftTokenAcct nftTempAcct ftRecvAcct : Pubkey)
    (initial_price auction_duration_sec : Nat) (now : Int) : Except Err Chain :=
  if exhibitChecks c nftTokenAcct nftTempAcct ftRecvAcct then do
    let l1 ← setAuthority c.ledger nftTempAcct exhibitor pda
    let l2 ← transfer l1 nftTokenAcct nftTempAcct 1 exhibitor
    pure { escrow := some
             { exhibitor_pubkey := exhibitor
               exhibitor_ft_receiving_pubkey := ftRecvAcct
               exhibiting_nft_temp_pubkey := nftTempAcct
               highest_bidder_pubkey := exhibitor
               highest_bidder_ft_temp_pubkey := ftRecvAcct
               highest_bidder_ft_returning_pubkey := ftRecvAcct
               price := initial_price
               end_at := wrapI64 (now + u64AsI64 auction_duration_sec) },
           ledger := l2 }
  else .error .constraint

/-- Anchor account constraints of `Bid` (lib.rs lines 239-286): the bidding
source holds at least `price`, the bidder is not the current leader, the
supplied leader accounts match the record, the bid strictly exceeds the
recorded price, and the auction has not expired. -/
def bidChecks (c : Chain)
    (bidder bidderFtTempAcct bidderFtAcct highestBidder hbFtTempAcct hbFtReturningAcct : Pubkey)
    (price : Nat) (now : Int) : Bool :=
  match c.escrow with
  | some r =>
    (lookupAcct c.ledger bidderFtTempAcct).isSome
      && (match lookupAcct c.ledger bidderFtAcct with
          | some a => decide (price ≤ a.amount)
          | none => false)
      && highestBidder != bidder
      && (lookupAcct c.ledger hbFtTempAcct).isSome
      && (lookupAcct c.ledger hbFtReturningAcct).isSome
      && r.highest_bidder_pubkey == highestBidder
      && r.highest_bidder_ft_temp_pubkey == hbFtTempAcct
      && r.highest_bidder_ft_returning_pubkey == hbFtReturningAcct
      && decide (r.price < price)
      && decide (now < r.end_at)
  | none => false

/-- The `bid` instruction (lib.rs lines 91-138): refund and close the
previous leader's custody when the recorded leader is not the exhibitor,
then delegate the new bidder's temp account to the PDA, escrow the bid
amount, and rewrite the leader fields of the record. -/
def bid (c : Chain)
    (bidder bidderFtTempAcct bidderFtAcct highestBidder hbFtTempAcct hbFtReturningAcct : Pubkey)
    (price : Nat) (now : Int) : Except Err Chain :=
  if bidChecks c bidder bidderFtTempAcct bidderFtAcct highestBidder hbFtTempAcct
      hbFtReturningAcct price now then
    match c.escrow with
    | some r =>
      (if r.highest_bidder_pubkey ≠ r.exhibitor_pubkey then
          transfer c.ledger hbFtTempAcct hbFtReturningAcct r.price pda >>= fun la =>
            closeAccount la hbFtTempAcct highestBidder pda
        else pure c.ledger) >>= fun l1 =>
      setAuthority l1 bidderFtTempAcct bidder pda >>= fun l2 =>
      transfer l2 bidderFtAcct bidderFtTempAcct price bidder >>= fun l3 =>
      pure { escrow := some { r with
               price := price
               highest_bidder_pubkey := bidder
               highest_bidder_ft_temp_pubkey := bidderFtTempAcct
               highest_bidder_ft_returning_pubkey := bidderFtAcct },
             ledger := l3 }
    | none => .error .constraint
  else .error .constraint

/-- Anchor account constraints of `Cancel` (lib.rs lines 209-236): the
signing exhibitor matches the record, the recorded leader is still the
exhibitor, and the supplied NFT temp account matches the record. -/
def cancelChecks (c : Chain) (exhibitor nftTokenAcct nftTempAcct : Pubkey) : Bool :=
  match c.escrow with
  | some r =>
    (lookupAcct c.ledger nftTokenAcct).isSome
      && (lookupAcct c.ledger nftTempAcct).isSome
      && r.exhibitor_pubkey == exhibitor
      && r.highest_bidder_pubkey == exhibitor
      && r.exhibiting_nft_temp_pubkey == nftTempAcct
  | none => false

/-- Balance of an account as deserialized at instruction entry (Anchor
caches the account data, so `ctx.accounts.x.amount` is the entry value). -/
def acctAmount (l : Ledger) (k : Pubkey) : Nat :=
  match lookupAcct l k with
  | some a => a.amount
  | none => 0

/-- The `cancel` instruction (lib.rs lines 65-88): return the NFT to the
exhibitor, close the NFT custody account, and destroy the record
(Anchor `close = exhibitor`). -/
def cancel (c : Chain) (exhibitor nftTokenAcct nftTempAcct : Pubkey) : Except Err Chain :=
  if cancelChecks c exhibitor nftTokenAcct nftTempAcct then do
    let l1 ← transfer c.ledger nftTempAcct nftTokenAcct (acctAmount c.ledger nftTempAcct) pda
    let l2 ← closeAccount l1 nftTempAcct exhibitor pda
    pure { escrow := none, ledger := l2 }
  else .error .constraint

/-- Anchor account constraints of `Close` (lib.rs lines 289-331): every
supplied account matches the record's stored identifier, the signing
`winning_bidder` is the recorded highest bidder, and the deadline passed. -/
def closeChecks (c : Chain)
    (winningBidder exhibitor nftTempAcct ftRecvAcct hbFtTempAcct hbNftRecvAcct : Pubkey)
    (now : Int) : Bool :=
  match c.escrow with
  | some r =>
    (lookupAcct c.ledger nftTempAcct).isSome
      && (lookupAcct c.ledger ftRecvAcct).isSome
      && (lookupAcct c.ledger hbFtTempAcct).isSome
      && (lookupAcct c.ledger hbNftRecvAcct).isSome
      && r.exhibitor_pubkey == exhibitor
      && r.exhibiting_nft_temp_pubkey == nftTempAcct
      && r.exhibitor_ft_receiving_pubkey == ftRecvAcct
      && r.highest_bidder_pubkey == winningBidder
      && r.highest_bidder_ft_temp_pubkey == hbFtTempAcct
      && decide (r.end_at ≤ now)
  | none => false

/-- The `close` instruction (lib.rs lines 141-177): send the NFT to the
winning bidder's receiving account, send the escrowed bid to the
exhibitor's receiving account, close both custody accounts, destroy the
record (Anchor `close = exhibitor`).  The transferred amounts are the
balances deserialized on entry, as Anchor caches them. -/
def close (c : Chain)
    (winningBidder exhibitor nftTempAcct ftRecvAcct hbFtTempAcct hbNftRecvAcct : Pubkey)
    (now : Int) : Except Err Chain :=
  if closeChecks c winningBidder exhibitor nftTempAcct ftRecvAcct hbFtTempAcct hbNftRecvAcct
      now then do
    let l1 ← transfer c.ledger nftTempAcct hbNftRecvAcct (acctAmount c.ledger nftTempAcct) pda
    let l2 ← transfer l1 hbFtTempAcct ftRecvAcct (acctAmount c.ledger hbFtTempAcct) pda
    let l3 ← closeAccount l2 hbFtTempAcct winningBidder pda
    let l4 ← closeAccount l3 nftTempAcct exhibitor pda
    pure { escrow := none, ledger := l4 }
  else .error .constraint

/-- One submitted instruction, with its signer, account references,
arguments and the clock value at execution. -/
inductive Op where
  | exhibitOp (exhibitor nftTokenAcct nftTempAcct ftRecvAcct : Pubkey)
      (initial_price auction_duration_sec : Nat) (now : Int)
  | bidOp (bidder bidderFtTempAcct bidderFtAcct highestBidder hbFtTempAcct
      hbFtReturningAcct : Pubkey) (price : Nat) (now : Int)
  | cancelOp (exhibitor nftTokenAcct nftTempAcct : Pubkey)
  | closeOp (winningBidder exhibitor nftTempAcct ftRecvAcct hbFtTempAcct
      hbNftRecvAcct : Pubkey) (now : Int)
  deriving DecidableEq, Repr

/-- Dispatch an instruction to its handler. -/
def applyOp (c : Chain) : Op → Except Err Chain
  | .exhibitOp a b d e p q t => exhibit c a b d e p q t
  | .bidOp a b d e f g p t => bid c a b d e f g p t
  | .cancelOp a b d => cancel c a b d
  | .closeOp a b d e f g t => close c a b d e f g t

/-- Boolean success test for an instruction result. -/
def exceptOk {α : Type} : Except Err α → Bool
  | .ok _ => true
  | .error _ => false

/-- Transaction-level semantics: a failing instruction aborts the whole
transaction, leaving the persisted state untouched. -/
def step (c : Chain) (o : Op) : Chain :=
  match applyOp c o with
  | .ok c2 => c2
  | .error _ => c

/-- Run a sequence of submitted transactions. -/
def run (c : Chain) (ops : List Op) : Chain := ops.foldl step c

/-- Does the record exist with its leader field equal to its exhibitor
field (the program's "no bid yet" sentinel)? -/
def leaderIsExhibitor (c : Chain) : Bool :=
  match c.escrow with
  | some r => r.highest_bidder_pubkey == r.exhibitor_pubkey
  | none => false

/-- Mint address of the exhibited NFT in the running example. -/
def nftMint : Pubkey := 100

/-- Mint address of the fungible bidding token in the running example. -/
def ftMint : Pubkey := 200

/-- Example ledger: exhibitor `1` owns accounts 10-15, bidder `2` owns
accounts 20-22. -/
def ledger0 : Ledger :=
  [ (10, { mint := nftMint, owner := 1, amount := 1 }),
    (11, { mint := nftMint, owner := 1, amount := 0 }),
    (12, { mint := ftMint, owner := 1, amount := 0 }),
    (13, { mint := ftMint, owner := 1, amount := 1000 }),
    (14, { mint := ftMint, owner := 1, amount := 0 }),
    (15, { mint := nftMint, owner := 1, amount := 0 }),
    (20, { mint := ftMint, owner := 2, amount := 1000 }),
    (21, { mint := ftMint, owner := 2, amount := 0 }),
    (22, { mint := nftMint, owner := 2, amount := 0 }) ]

/-- Initial chain state: unclaimed record slot plus `ledger0`. -/
def chain0 : Chain := { escrow := none, ledger := ledger0 }

/-- Exhibitor `1` exhibits the NFT at price 100 for 3600 seconds at t = 0. -/
def exhibitOp1 : Op := .exhibitOp 1 10 11 12 100 3600 0

/-- Bidder `2` bids 150 at t = 10. -/
def bidOp1 : Op := .bidOp 2 21 20 1 12 12 150 10

/-- The exhibitor `1` outbids with 200 at t = 20. -/
def bidOp2 : Op := .bidOp 1 14 13 2 21 20 200 20

/-- The exhibitor attempts to cancel. -/
def cancelOp1 : Op := .cancelOp 1 10 11

/-- State after the exhibit. -/
def chain1 : Chain := step chain0 exhibitOp1

/-- State after bidder `2`'s bid. -/
def chain2 : Chain := step chain1 bidOp1

/-- State after the exhibitor's own bid. -/
def chain3 : Chain := step chain2 bidOp2

/-- The auction record as created by `exhibitOp1`. -/
def recAfterExhibit : Auction :=
  { exhibitor_pubkey := 1
    exhibitor_ft_receiving_pubkey := 12
    exhibiting_nft_temp_pubkey := 11
    highest_bidder_pubkey := 1
    highest_bidder_ft_temp_pubkey := 12
    highest_bidder_ft_returning_pubkey := 12
    price := 100
    end_at := 3600 }

/-- The auction record after `bidOp1`. -/
def recAfterBid1 : Auction :=
  { exhibitor_pubkey := 1
    exhibitor_ft_receiving_pubkey := 12
    exhibiting_nft_temp_pubkey := 11
    highest_bidder_pubkey := 2
    highest_bidder_ft_temp_pubkey := 21
    highest_bidder_ft_returning_pubkey := 20
    price := 150
    end_at := 3600 }

/-- The auction record after `bidOp2`. -/
def recAfterBid2 : Auction :=
  { exhibitor_pubkey := 1
    exhibitor_ft_receiving_pubkey := 12
    exhibiting_nft_temp_pubkey := 11
    highest_bidder_pubkey := 1
    highest_bidder_ft_temp_pubkey := 14
    highest_bidder_ft_returning_pubkey := 13
    price := 200
    end_at := 3600 }

/-! ## Helper lemmas -/

/-- Inversion of a successful `Except` bind. -/
theorem bind_ok {α β : Type} {e : Except Err α} {f : α → Except Err β} {b : β}
    (h : (e >>= f) = .ok b) : ∃ a, e = .ok a ∧ f a = .ok b := by
  cases e with
  | ok a =>
    refine ⟨a, rfl, ?_⟩
    simpa [Bind.bind, Except.bind] using h
  | error err => simp [Bind.bind, Except.bind] at h

/-- A failed instruction commits nothing. -/
theorem step_eq_of_not_ok (c : Chain) (o : Op) (h : exceptOk (applyOp c o) = false) :
    step c o = c := by
  unfold step
  cases h2 : applyOp c o with
  | ok c2 => rw [h2] at h; simp [exceptOk] at h
  | error e => rfl

/-- A successful `bid` passed its Anchor constraints. -/
theorem bid_ok_checks (c : Chain) (bidder bft bfa hb hbt hbr : Pubkey) (price : Nat)
    (now : Int) (c2 : Chain) (h : bid c bidder bft bfa hb hbt hbr price now = .ok c2) :
    bidChecks c bidder bft bfa hb hbt hbr price now = true := by
  by_cases hc : bidChecks c bidder bft bfa hb hbt hbr price now = true
  · exact hc
  · unfold bid at h
    rw [if_neg hc] at h
    exact absurd h (by simp)

/-- Content of the `Bid` Anchor constraints, given the record exists. -/
theorem bidChecks_elim (c : Chain) (bidder bft bfa hb hbt hbr : Pubkey) (price : Nat)
    (now : Int) (r : Auction) (hr : c.escrow = some r)
    (h : bidChecks c bidder bft bfa hb hbt hbr price now = true) :
    hb ≠ bidder ∧ r.highest_bidder_pubkey = hb ∧ r.highest_bidder_ft_temp_pubkey = hbt ∧
      r.highest_bidder_ft_returning_pubkey = hbr ∧ r.price < price ∧ now < r.end_at := by
  unfold bidChecks at h
  rw [hr] at h
  simp only [Bool.and_eq_true, beq_iff_eq, bne_iff_ne, decide_eq_true_eq] at h
  obtain ⟨⟨⟨⟨⟨⟨⟨⟨⟨_, _⟩, h3⟩, _⟩, _⟩, h6⟩, h7⟩, h8⟩, h9⟩, h10⟩ := h
  exact ⟨h3, h6, h7, h8, h9, h10⟩

/-- Decomposition of a successful `bid` into its ordered ledger effects and
its record update. -/
theorem bid_ok_elim (c : Chain) (bidder bft bfa hb hbt hbr : Pubkey) (price : Nat)
    (now : Int) (c2 : Chain) (r : Auction) (hr : c.escrow = some r)
    (h : bid c bidder bft bfa hb hbt hbr price now = .ok c2) :
    ∃ l1 l2 l3,
      (if r.highest_bidder_pubkey ≠ r.exhibitor_pubkey then
          (transfer c.ledger hbt hbr r.price pda >>= fun la =>
            closeAccount la hbt hb pda) = .ok l1
        else l1 = c.ledger) ∧
      setAuthority l1 bft bidder pda = .ok l2 ∧
      transfer l2 bfa bft price bidder = .ok l3 ∧
      c2 = { escrow := some { r with
               price := price
               highest_bidder_pubkey := bidder
               highest_bidder_ft_temp_pubkey := bft
               highest_bidder_ft_returning_pubkey := bfa },
             ledger := l3 } := by
  have hc := bid_ok_checks c bidder bft bfa hb hbt hbr price now c2 h
  unfold bid at h
  rw [if_pos hc, hr] at h
  dsimp only at h
  by_cases hne : r.highest_bidder_pubkey ≠ r.exhibitor_pubkey
  · rw [if_pos hne] at h
    obtain ⟨l1, h1, h2⟩ := bind_ok h
    obtain ⟨l2, h3, h4⟩ := bind_ok h2
    obtain ⟨l3, h5, h6⟩ := bind_ok h4
    simp only [pure, Except.pure, Except.ok.injEq] at h6
    exact ⟨l1, l2, l3, by rw [if_pos hne]; exact h1, h3, h5, h6.symm⟩
  · rw [if_neg hne, pure_bind] at h
    obtain ⟨l2, h3, h4⟩ := bind_ok h
    obtain ⟨l3, h5, h6⟩ := bind_ok h4
    simp only [pure, Except.pure, Except.ok.injEq] at h6
    exact ⟨c.ledger, l2, l3, by rw [if_neg hne], h3, h5, h6.symm⟩

/-- A successful `exhibit` passed its Anchor constraints and created exactly
the record written by lines 29-43. -/
theorem exhibit_ok_record (c : Chain) (ex ntk ntt ftr : Pubkey) (p d : Nat) (t : Int)
    (c2 : Chain) (h : exhibit c ex ntk ntt ftr p d t = .ok c2) :
    c2.escrow = some
      { exhibitor_pubkey := ex
        exhibitor_ft_receiving_pubkey := ftr
        exhibiting_nft_temp_pubkey := ntt
        highest_bidder_pubkey := ex
        highest_bidder_ft_temp_pubkey := ftr
        highest_bidder_ft_returning_pubkey := ftr
        price := p
        end_at := wrapI64 (t + u64AsI64 d) } := by
  unfold exhibit at h
  by_cases hc : exhibitChecks c ntk ntt ftr = true
  · rw [if_pos hc] at h
    obtain ⟨l1, h1, h2⟩ := bind_ok h
    obtain ⟨l2, h3, h4⟩ := bind_ok h2
    simp only [pure, Except.pure, Except.ok.injEq] at h4
    rw [← h4]
  · rw [if_neg hc] at h
    exact absurd h (by simp)

/-- A successful `close` passed its Anchor constraints. -/
theorem close_ok_checks (c : Chain) (w ex ntt ftr hbt nrcv : Pubkey) (now : Int)
    (c2 : Chain) (h : close c w ex ntt ftr hbt nrcv now = .ok c2) :
    closeChecks c w ex ntt ftr hbt nrcv now = true := by
  by_cases hc : closeChecks c w ex ntt ftr hbt nrcv now = true
  · exact hc
  · unfold close at h
    rw [if_neg hc] at h
    exact absurd h (by simp)

/-- Content of the `Close` Anchor constraints, given the record exists. -/
theorem closeChecks_elim (c : Chain) (w ex ntt ftr hbt nrcv : Pubkey) (now : Int)
    (r : Auction) (hr : c.escrow = some r)
    (h : closeChecks c w ex ntt ftr hbt nrcv now = true) :
    r.exhibitor_pubkey = ex ∧ r.exhibiting_nft_temp_pubkey = ntt ∧
      r.exhibitor_ft_receiving_pubkey = ftr ∧ r.highest_bidder_pubkey = w ∧
      r.highest_bidder_ft_temp_pubkey = hbt ∧ r.end_at ≤ now := by
  unfold closeChecks at h
  rw [hr] at h
  simp only [Bool.and_eq_true, beq_iff_eq, decide_eq_true_eq] at h
  obtain ⟨⟨⟨⟨⟨⟨⟨⟨⟨_, _⟩, _⟩, _⟩, h5⟩, h6⟩, h7⟩, h8⟩, h9⟩, h10⟩ := h
  exact ⟨h5, h6, h7, h8, h9, h10⟩

/-- Looking up after an overwrite. -/
theorem lookupAcct_setAcct (l : Ledger) (k : Pubkey) (v : TokenAccount) (q : Pubkey) :
    lookupAcct (setAcct l k v) q =
      if q = k then (lookupAcct l k).map (fun _ => v) else lookupAcct l q := by
  induction l with
  | nil => simp [setAcct, lookupAcct]
  | cons kv rest ih =>
    obtain ⟨k0, a0⟩ := kv
    by_cases hk : k = k0
    · subst hk
      by_cases hq : q = k
      · subst hq
        simp [setAcct, lookupAcct]
      · simp [setAcct, lookupAcct, hq]
    · by_cases hq : q = k0
      · have hk0k : ¬k0 = k := fun h => hk h.symm
        simp [setAcct, lookupAcct, hk, hq, hk0k]
      · simp [setAcct, lookupAcct, hk, hq, ih]

/-- `transfer` never changes the owner of any account. -/
theorem transfer_owner_stable (l : Ledger) (s d q : Pubkey) (amt : Nat) (auth : Pubkey)
    (l2 : Ledger) (a : TokenAccount) (h : transfer l s d amt auth = .ok l2)
    (hq : lookupAcct l q = some a) :
    ∃ a2, lookupAcct l2 q = some a2 ∧ a2.owner = a.owner := by
  unfold transfer at h
  cases hs : lookupAcct l s <;> rw [hs] at h
  · exact absurd h (by simp)
  case some s0 =>
    cases hd : lookupAcct l d <;> rw [hd] at h
    · exact absurd h (by simp)
    case some d0 =>
      dsimp only at h
      split at h
      · exact absurd h (by simp)
      split at h
      · exact absurd h (by simp)
      split at h
      · exact absurd h (by simp)
      split at h
      case isTrue hsd =>
        refine ⟨a, ?_, rfl⟩
        simp only [Except.ok.injEq] at h
        rw [← h]
        exact hq
      case isFalse hsd =>
        split at h
        case isFalse => exact absurd h (by simp)
        case isTrue hov =>
          simp only [Except.ok.injEq] at h
          subst h
          rw [lookupAcct_setAcct]
          by_cases hqd : q = d
          · rw [if_pos hqd, lookupAcct_setAcct,
              if_neg (fun hds : d = s => hsd hds.symm)]
            subst hqd
            rw [hq] at hd
            have had : a = d0 := by injection hd
            rw [hq]
            exact ⟨_, rfl, by rw [had]⟩
          · rw [if_neg hqd, lookupAcct_setAcct]
            by_cases hqs : q = s
            · rw [if_pos hqs]
              subst hqs
              rw [hq] at hs
              have has : a = s0 := by injection hs
              rw [hq]
              exact ⟨_, rfl, by rw [has]⟩
            · rw [if_neg hqs]
              exact ⟨a, hq, rfl⟩

/-- `transfer` fails whenever the authorizing identity does not own the
source account. -/
theorem transfer_owner_gate (l : Ledger) (s d : Pubkey) (amt : Nat) (auth : Pubkey)
    (a : TokenAccount) (hs : lookupAcct l s = some a) (hown : a.owner ≠ auth) :
    exceptOk (transfer l s d amt auth) = false := by
  unfold transfer
  rw [hs]
  cases hd : lookupAcct l d
  · rfl
  · dsimp only
    split
    · rfl
    split
    · rfl
    rfl

/-- Bind on a successful `Except` computation reduces. -/
theorem ok_bind {α β : Type} (a : α) (f : α → Except Err β) :
    (Except.ok a >>= f) = f a := rfl

/-! ## Claim theorems -/

/-- Claim C1 is false as stated: starting from `ledger0`, after a successful
Exhibit by party 1 and a successful Bid by party 2, a further successful Bid
by the exhibitor (party 1) itself leaves `highest_bidder_pubkey` equal to
`exhibitor_pubkey` even though bids have been placed, so the recorded
highest bidder does not always differ from the exhibitor after a successful
Bid. -/
theorem exhibitor_self_bid_restores_sentinel :
    exceptOk (applyOp chain0 exhibitOp1) = true ∧
    exceptOk (applyOp chain1 bidOp1) = true ∧
    exceptOk (applyOp chain2 bidOp2) = true ∧
    leaderIsExhibitor chain3 = true := by
  decide

/-- Claim C1 (amended): a successful Exhibit initializes the highest bidder
to the exhibitor, and every successful Bid records the bidding signer as
highest bidder, which always differs from the previously recorded highest
bidder — but it may equal the exhibitor (when the exhibitor outbids), so
the sentinel equality is necessary but not sufficient for "no bid yet". -/
theorem sentinel_on_creation_and_leader_rotation :
    (∀ c ex ntk ntt ftr p d t c2 r2,
        exhibit c ex ntk ntt ftr p d t = .ok c2 → c2.escrow = some r2 →
        r2.highest_bidder_pubkey = r2.exhibitor_pubkey)
    ∧ (∀ c bidder bft bfa hb hbt hbr price now c2 r r2,
        bid c bidder bft bfa hb hbt hbr price now = .ok c2 →
        c.escrow = some r → c2.escrow = some r2 →
        r2.highest_bidder_pubkey = bidder ∧ bidder ≠ r.highest_bidder_pubkey) := by
  constructor
  · intro c ex ntk ntt ftr p d t c2 r2 h hr2
    rw [exhibit_ok_record c ex ntk ntt ftr p d t c2 h] at hr2
    injection hr2 with hr2
    rw [← hr2]
  · intro c bidder bft bfa hb hbt hbr price now c2 r r2 h hr hr2
    obtain ⟨hne, hhb, _, _, _, _⟩ :=
      bidChecks_elim c bidder bft bfa hb hbt hbr price now r hr
        (bid_ok_checks c bidder bft bfa hb hbt hbr price now c2 h)
    obtain ⟨l1, l2, l3, _, _, _, hc2⟩ :=
      bid_ok_elim c bidder bft bfa hb hbt hbr price now c2 r hr h
    rw [hc2] at hr2
    simp only [Option.some.injEq] at hr2
    constructor
    · rw [← hr2]
    · rw [hhb]
      exact fun hcon => hne hcon.symm

/-- Witness for the amended claim C1 at the concrete scenario. -/
theorem sentinel_on_creation_and_leader_rotation_witness :
    recAfterExhibit.highest_bidder_pubkey = recAfterExhibit.exhibitor_pubkey ∧
    (recAfterBid1.highest_bidder_pubkey = 2 ∧
      (2 : Pubkey) ≠ recAfterExhibit.highest_bidder_pubkey) :=
  ⟨sentinel_on_creation_and_leader_rotation.1 chain0 1 10 11 12 100 3600 0 chain1
      recAfterExhibit (by rfl) (by rfl),
   sentinel_on_creation_and_leader_rotation.2 chain1 2 21 20 1 12 12 150 10 chain2
      recAfterExhibit recAfterBid1 (by rfl) (by rfl) (by rfl)⟩

/-- Claim C2 is violated by the code: starting from `ledger0`, a Bid by
party 2 and a Bid by the exhibitor (party 1) both succeed, after which the
exhibitor's Cancel also succeeds — destroying the record and returning the
NFT while the exhibitor's own 200-token bid stays stranded in the
PDA-owned custody account 14. -/
theorem cancel_succeeds_after_exhibitor_self_bid :
    exceptOk (applyOp chain1 bidOp1) = true ∧
    exceptOk (applyOp chain2 bidOp2) = true ∧
    exceptOk (applyOp chain3 cancelOp1) = true ∧
    (step chain3 cancelOp1).escrow = none ∧
    lookupAcct (step chain3 cancelOp1).ledger 14 =
      some { mint := ftMint, owner := pda, amount := 200 } := by
  decide

/-- Claim C3 is false as stated: on the state reached after bidder 2's
accepted bid, a Close at the deadline with every account reference taken
from the record is rejected when signed by party 3, while the identical
call signed by the recorded highest bidder 2 is accepted — Close is not
caller-independent. -/
theorem close_rejected_for_non_winner_after_deadline :
    exceptOk (close chain2 3 1 11 12 21 22 3600) = false ∧
    exceptOk (close chain2 2 1 11 12 21 22 3600) = true ∧
    chain2.escrow = some recAfterBid1 ∧ recAfterBid1.end_at ≤ 3600 := by
  decide

/-- Claim C3 (amended): Close is not permissionless — a successful Close
requires the signing caller to be the recorded highest bidder, and it also
requires the deadline to have passed, so before `end_at` Close is rejected
for every caller. -/
theorem close_requires_winner_and_deadline :
    ∀ c w ex ntt ftr hbt nrcv now c2 r,
      close c w ex ntt ftr hbt nrcv now = .ok c2 → c.escrow = some r →
      w = r.highest_bidder_pubkey ∧ r.end_at ≤ now := by
  intro c w ex ntt ftr hbt nrcv now c2 r h hr
  obtain ⟨_, _, _, hw, _, hend⟩ :=
    closeChecks_elim c w ex ntt ftr hbt nrcv now r hr
      (close_ok_checks c w ex ntt ftr hbt nrcv now c2 h)
  exact ⟨hw.symm, hend⟩

/-- Witness for the amended claim C3 at the concrete scenario. -/
theorem close_requires_winner_and_deadline_witness :
    (2 : Pubkey) = recAfterBid1.highest_bidder_pubkey ∧
      recAfterBid1.end_at ≤ (3600 : Int) :=
  close_requires_winner_and_deadline chain2 2 1 11 12 21 22 3600
    (step chain2 (.closeOp 2 1 11 12 21 22 3600)) recAfterBid1 (by rfl) (by rfl)

/-- Claim C4: a successful Bid requires `now < end_at` and a successful
Close requires `end_at ≤ now`; at the exact boundary `now = end_at` a Bid
is always rejected while a Close is permitted (the concrete boundary Close
at `now = end_at = 3600` succeeds). -/
theorem bid_close_time_gating :
    (∀ c bidder bft bfa hb hbt hbr price now c2 r,
        bid c bidder bft bfa hb hbt hbr price now = .ok c2 →
        c.escrow = some r → now < r.end_at)
    ∧ (∀ c w ex ntt ftr hbt nrcv now c2 r,
        close c w ex ntt ftr hbt nrcv now = .ok c2 →
        c.escrow = some r → r.end_at ≤ now)
    ∧ (∀ c bidder bft bfa hb hbt hbr price r,
        c.escrow = some r →
        exceptOk (bid c bidder bft bfa hb hbt hbr price r.end_at) = false)
    ∧ exceptOk (close chain2 2 1 11 12 21 22 3600) = true
    ∧ recAfterBid1.end_at = 3600 ∧ chain2.escrow = some recAfterBid1 := by
  refine ⟨?_, ?_, ?_, by decide, by decide, by decide⟩
  · intro c bidder bft bfa hb hbt hbr price now c2 r h hr
    exact (bidChecks_elim c bidder bft bfa hb hbt hbr price now r hr
      (bid_ok_checks c bidder bft bfa hb hbt hbr price now c2 h)).2.2.2.2.2
  · intro c w ex ntt ftr hbt nrcv now c2 r h hr
    exact (closeChecks_elim c w ex ntt ftr hbt nrcv now r hr
      (close_ok_checks c w ex ntt ftr hbt nrcv now c2 h)).2.2.2.2.2
  · intro c bidder bft bfa hb hbt hbr price r hr
    by_cases hc : bidChecks c bidder bft bfa hb hbt hbr price r.end_at = true
    · exact absurd
        (bidChecks_elim c bidder bft bfa hb hbt hbr price r.end_at r hr hc).2.2.2.2.2
        (lt_irrefl _)
    · unfold bid
      rw [if_neg hc]
      rfl

/-- Witness for claim C4 at the concrete scenario. -/
theorem bid_close_time_gating_witness :
    (10 : Int) < recAfterExhibit.end_at ∧ recAfterBid1.end_at ≤ (3600 : Int) ∧
      exceptOk (bid chain2 3 21 20 2 21 20 500 recAfterBid1.end_at) = false :=
  ⟨bid_close_time_gating.1 chain1 2 21 20 1 12 12 150 10 chain2 recAfterExhibit
      (by rfl) (by rfl),
   bid_close_time_gating.2.1 chain2 2 1 11 12 21 22 3600
      (step chain2 (.closeOp 2 1 11 12 21 22 3600)) recAfterBid1 (by rfl) (by rfl),
   bid_close_time_gating.2.2.1 chain2 3 21 20 2 21 20 500 recAfterBid1 (by rfl)⟩

/-- Claim C5: every accepted Bid strictly exceeds the recorded price and
becomes the new recorded price, and a Bid whose price is at most the
recorded price is rejected, leaving the chain state (record and all
custody accounts) unchanged. -/
theorem bid_price_strictly_increasing :
    (∀ c bidder bft bfa hb hbt hbr price now c2 r r2,
        bid c bidder bft bfa hb hbt hbr price now = .ok c2 →
        c.escrow = some r → c2.escrow = some r2 →
        r.price < price ∧ r2.price = price)
    ∧ (∀ c bidder bft bfa hb hbt hbr price now r,
        c.escrow = some r → price ≤ r.price →
        step c (.bidOp bidder bft bfa hb hbt hbr price now) = c) := by
  constructor
  · intro c bidder bft bfa hb hbt hbr price now c2 r r2 h hr hr2
    obtain ⟨_, _, _, _, hlt, _⟩ :=
      bidChecks_elim c bidder bft bfa hb hbt hbr price now r hr
        (bid_ok_checks c bidder bft bfa hb hbt hbr price now c2 h)
    obtain ⟨l1, l2, l3, _, _, _, hc2⟩ :=
      bid_ok_elim c bidder bft bfa hb hbt hbr price now c2 r hr h
    rw [hc2] at hr2
    simp only [Option.some.injEq] at hr2
    exact ⟨hlt, by rw [← hr2]⟩
  · intro c bidder bft bfa hb hbt hbr price now r hr hle
    apply step_eq_of_not_ok
    show exceptOk (bid c bidder bft bfa hb hbt hbr price now) = false
    by_cases hc : bidChecks c bidder bft bfa hb hbt hbr price now = true
    · exact absurd (bidChecks_elim c bidder bft bfa hb hbt hbr price now r hr hc).2.2.2.2.1
        (not_lt_of_le hle)
    · unfold bid
      rw [if_neg hc]
      rfl

/-- Witness for claim C5 at the concrete scenario. -/
theorem bid_price_strictly_increasing_witness :
    (recAfterBid1.price < 200 ∧ recAfterBid2.price = 200) ∧
      step chain1 (.bidOp 2 21 20 1 12 12 50 10) = chain1 :=
  ⟨bid_price_strictly_increasing.1 chain2 1 14 13 2 21 20 200 20 chain3
      recAfterBid1 recAfterBid2 (by rfl) (by rfl) (by rfl),
   bid_price_strictly_increasing.2 chain1 2 21 20 1 12 12 50 10 recAfterExhibit
      (by rfl) (by decide)⟩

/-- Claim C6: a successful Bid refunds the previous leader exactly when the
recorded highest bidder differs from the exhibitor: in that case the
recorded price is transferred from the recorded leader custody account to
the recorded refund account and the custody account is closed, strictly
before the new bidder's delegation and escrow transfer; when the recorded
leader is the exhibitor, the final ledger arises from the new bidder's
delegation and escrow transfer alone, with no refund transfer. -/
theorem bid_refund_order :
    ∀ c bidder bft bfa hb hbt hbr price now c2 r,
      bid c bidder bft bfa hb hbt hbr price now = .ok c2 →
      c.escrow = some r →
      hb = r.highest_bidder_pubkey ∧ hbt = r.highest_bidder_ft_temp_pubkey ∧
      hbr = r.highest_bidder_ft_returning_pubkey ∧
      (if r.highest_bidder_pubkey ≠ r.exhibitor_pubkey then
          (transfer c.ledger hbt hbr r.price pda >>= fun la =>
            closeAccount la hbt hb pda >>= fun lb =>
              setAuthority lb bft bidder pda >>= fun lc =>
                transfer lc bfa bft price bidder) = .ok c2.ledger
        else
          (setAuthority c.ledger bft bidder pda >>= fun lc =>
            transfer lc bfa bft price bidder) = .ok c2.ledger) := by
  intro c bidder bft bfa hb hbt hbr price now c2 r h hr
  obtain ⟨_, hhb, hhbt, hhbr, _, _⟩ :=
    bidChecks_elim c bidder bft bfa hb hbt hbr price now r hr
      (bid_ok_checks c bidder bft bfa hb hbt hbr price now c2 h)
  obtain ⟨l1, l2, l3, hif, h3, h5, hc2⟩ :=
    bid_ok_elim c bidder bft bfa hb hbt hbr price now c2 r hr h
  have hledger : c2.ledger = l3 := by rw [hc2]
  refine ⟨hhb.symm, hhbt.symm, hhbr.symm, ?_⟩
  by_cases hne : r.highest_bidder_pubkey ≠ r.exhibitor_pubkey
  · rw [if_pos hne]
    rw [if_pos hne] at hif
    obtain ⟨la, hta, htb⟩ := bind_ok hif
    rw [hta, ok_bind, htb, ok_bind, h3, ok_bind, hledger]
    exact h5
  · rw [if_neg hne]
    rw [if_neg hne] at hif
    rw [hif] at h3
    rw [h3, ok_bind, hledger]
    exact h5

/-- Witness for claim C6 at the concrete scenario: the exhibitor's
outbidding of bidder 2 refunds the 150 tokens from custody account 21 to
refund account 20 and closes 21 before the new escrow into 14 happens. -/
theorem bid_refund_order_witness :
    (transfer chain2.ledger 21 20 recAfterBid1.price pda >>= fun la =>
      closeAccount la 21 2 pda >>= fun lb =>
        setAuthority lb 14 1 pda >>= fun lc =>
          transfer lc 13 14 200 1) = .ok chain3.ledger := by
  have h := bid_refund_order chain2 1 14 13 2 21 20 200 20 chain3 recAfterBid1
    (by rfl) (by rfl)
  have h4 := h.2.2.2
  rw [if_pos (show recAfterBid1.highest_bidder_pubkey ≠ recAfterBid1.exhibitor_pubkey
    by decide)] at h4
  exact h4

/-- Claim C7: whenever an operation fails — for any of the four instruction
kinds and any input — the committed chain state (the auction record and
every custody account balance) is exactly the state before the operation:
the transaction aborts with no partial state change. -/
theorem failing_op_leaves_state_unchanged :
    ∀ c o, exceptOk (applyOp c o) = false → step c o = c := by
  intro c o h
  exact step_eq_of_not_ok c o h

/-- Witness for claim C7: after bidder 2's accepted bid, the exhibitor's
Cancel fails and commits nothing. -/
theorem failing_op_leaves_state_unchanged_witness :
    step chain2 cancelOp1 = chain2 :=
  failing_op_leaves_state_unchanged chain2 cancelOp1 (by decide)

/-- Claim C8: a successful Bid rewrites only the price and the three
highest-bidder fields; the exhibitor identity, the exhibitor payout
account, the exhibit custody account and the deadline are unchanged. -/
theorem bid_frame_condition :
    ∀ c bidder bft bfa hb hbt hbr price now c2 r r2,
      bid c bidder bft bfa hb hbt hbr price now = .ok c2 →
      c.escrow = some r → c2.escrow = some r2 →
      r2.exhibitor_pubkey = r.exhibitor_pubkey ∧
      r2.exhibitor_ft_receiving_pubkey = r.exhibitor_ft_receiving_pubkey ∧
      r2.exhibiting_nft_temp_pubkey = r.exhibiting_nft_temp_pubkey ∧
      r2.end_at = r.end_at := by
  intro c bidder bft bfa hb hbt hbr price now c2 r r2 h hr hr2
  obtain ⟨l1, l2, l3, _, _, _, hc2⟩ :=
    bid_ok_elim c bidder bft bfa hb hbt hbr price now c2 r hr h
  rw [hc2] at hr2
  simp only [Option.some.injEq] at hr2
  rw [← hr2]
  exact ⟨rfl, rfl, rfl, rfl⟩

/-- Witness for claim C8 at the concrete scenario. -/
theorem bid_frame_condition_witness :
    recAfterBid2.exhibitor_pubkey = recAfterBid1.exhibitor_pubkey ∧
    recAfterBid2.exhibitor_ft_receiving_pubkey =
      recAfterBid1.exhibitor_ft_receiving_pubkey ∧
    recAfterBid2.exhibiting_nft_temp_pubkey = recAfterBid1.exhibiting_nft_temp_pubkey ∧
    recAfterBid2.end_at = recAfterBid1.end_at :=
  bid_frame_condition chain2 1 14 13 2 21 20 200 20 chain3 recAfterBid1 recAfterBid2
    (by rfl) (by rfl) (by rfl)

/-- Claim C9 is false as stated: an Exhibit at `now = 0` with
`duration = 2 ^ 63` succeeds, but the stored deadline is the wrapped value
`-(2 ^ 63)`, not `0 + 2 ^ 63`: the Rust cast `auction_duration_sec as i64`
reinterprets large durations as negative, so `end_at = now + duration` does
not hold for every value of `duration`. -/
theorem exhibit_end_at_wraps_on_large_duration :
    exceptOk (applyOp chain0 (.exhibitOp 1 10 11 12 100 (2 ^ 63) 0)) = true ∧
    (match (step chain0 (.exhibitOp 1 10 11 12 100 (2 ^ 63) 0)).escrow with
      | some r => r.end_at
      | none => 0) = -(2 ^ 63 : Int) ∧
    ((0 : Int) + ((2 ^ 63 : Nat) : Int) ≠ -(2 ^ 63 : Int)) := by
  refine ⟨by decide, by decide, by decide⟩

/-- Claim C9 (amended): a successful Exhibit stores `price = initial_price`
always, and stores `end_at` as the two's-complement 64-bit value of
`now + (duration as i64)`; this equals `now + duration` exactly whenever
`duration < 2 ^ 63` and `now + duration` stays within the `i64` range. -/
theorem exhibit_price_and_end_at :
    ∀ c ex ntk ntt ftr p d t c2 r2,
      exhibit c ex ntk ntt ftr p d t = .ok c2 → c2.escrow = some r2 →
      r2.price = p ∧ r2.end_at = wrapI64 (t + u64AsI64 d) ∧
      (d < 2 ^ 63 → -(2 ^ 63) ≤ t → t + (d : Int) < 2 ^ 63 →
        r2.end_at = t + (d : Int)) := by
  intro c ex ntk ntt ftr p d t c2 r2 h hr2
  rw [exhibit_ok_record c ex ntk ntt ftr p d t c2 h] at hr2
  injection hr2 with hr2
  subst hr2
  refine ⟨rfl, rfl, ?_⟩
  intro hd ht hsum
  show wrapI64 (t + u64AsI64 d) = t + (d : Int)
  have hcast : u64AsI64 d = (d : Int) := by
    unfold u64AsI64
    rw [if_pos hd]
  rw [hcast]
  unfold wrapI64
  have hd0 : (0 : Int) ≤ (d : Int) := Int.natCast_nonneg d
  have h0 : (0 : Int) ≤ t + (d : Int) + 2 ^ 63 := by linarith
  have h1 : t + (d : Int) + 2 ^ 63 < I64MOD := by
    have h64 : I64MOD = 2 ^ 63 + 2 ^ 63 := by norm_num [I64MOD]
    linarith
  rw [Int.emod_eq_of_lt h0 h1]
  ring

/-- Witness for the amended claim C9 at the concrete scenario. -/
theorem exhibit_price_and_end_at_witness :
    recAfterExhibit.price = 100 ∧ recAfterExhibit.end_at = (0 : Int) + ((3600 : Nat) : Int) :=
  ⟨(exhibit_price_and_end_at chain0 1 10 11 12 100 3600 0 chain1 recAfterExhibit
      (by rfl) (by rfl)).1,
   (exhibit_price_and_end_at chain0 1 10 11 12 100 3600 0 chain1 recAfterExhibit
      (by rfl) (by rfl)).2.2 (by norm_num) (by norm_num) (by norm_num)⟩

/-- Claim C10 is false as stated: on the no-bid state after the Exhibit,
a Close at the deadline signed by the exhibitor as winning bidder with the
record's stored identifiers passes every admission check, yet the operation
fails (the recorded bid-custody account is the exhibitor's own receiving
account, which the program authority does not control) and commits
nothing — Close on a bid-less auction does not succeed. -/
theorem close_without_bid_passes_checks_but_fails :
    closeChecks chain1 1 1 11 12 12 15 3600 = true ∧
    exceptOk (close chain1 1 1 11 12 12 15 3600) = false ∧
    step chain1 (.closeOp 1 1 11 12 12 15 3600) = chain1 := by
  refine ⟨by decide, by decide, by decide⟩

/-- Claim C10 (amended): Close's admission checks do not require a bid, but
Close can never succeed while the account recorded as the leading-bid
custody is not owned by the program authority — which is the case for the
exhibitor's receiving account recorded at Exhibit time — so a no-bid Close
fails in settlement rather than transferring the asset. -/
theorem close_not_ok_without_program_authority :
    ∀ c w ex ntt ftr hbt nrcv now r a,
      c.escrow = some r →
      lookupAcct c.ledger r.highest_bidder_ft_temp_pubkey = some a →
      a.owner ≠ pda →
      exceptOk (close c w ex ntt ftr hbt nrcv now) = false := by
  intro c w ex ntt ftr hbt nrcv now r a hr ha hown
  by_cases hc : closeChecks c w ex ntt ftr hbt nrcv now = true
  · obtain ⟨_, _, _, _, hhbt, _⟩ := closeChecks_elim c w ex ntt ftr hbt nrcv now r hr hc
    rw [hhbt] at ha
    unfold close
    rw [if_pos hc]
    cases h1 : transfer c.ledger ntt nrcv (acctAmount c.ledger ntt) pda with
    | error e => rfl
    | ok l1 =>
      rw [ok_bind]
      obtain ⟨a2, ha2, hown2⟩ :=
        transfer_owner_stable c.ledger ntt nrcv hbt (acctAmount c.ledger ntt) pda l1 a h1 ha
      cases h2 : transfer l1 hbt ftr (acctAmount c.ledger hbt) pda with
      | error e => rfl
      | ok l2 =>
        have hgate := transfer_owner_gate l1 hbt ftr (acctAmount c.ledger hbt) pda a2 ha2
          (by rw [hown2]; exact hown)
        rw [h2] at hgate
        simp [exceptOk] at hgate
  · unfold close
    rw [if_neg hc]
    rfl

/-- Witness for the amended claim C10 at the concrete scenario. -/
theorem close_not_ok_without_program_authority_witness :
    exceptOk (close chain1 1 1 11 12 12 15 3600) = false :=
  close_not_ok_without_program_authority chain1 1 1 11 12 12 15 3600 recAfterExhibit
    { mint := ftMint, owner := 1, amount := 0 } (by rfl) (by rfl) (by decide)

end AnchorAuction
